import Mathlib

/-!
# A verification model of the `atto` wallet command (`cmd/atto/main.go`)

This file shallowly embeds the transaction pipeline of the `atto` Nano
wallet.  The authoritative source is `cmd/atto/main.go`; the functions of
the wallet library and of `cmd/atto/util.go` that `main.go` calls but whose
code is not available (`FirstReceive`, `Receive`, `Change`, `Send`,
`rawToXNO`, `letUserVerifySend`, the `node` and `defaultRepresentative`
constants) are modelled from the specification's description of the Ledger
Client interface; each such definition is marked `Modelled from the spec:`
in its doc comment.

External effects (ledger queries, signing, proof-of-work, submission,
stdin/stdout/stderr) are represented by an environment `Env` fixing the
outcome of every external call, and every operation returns the list of
observable events it produced together with its error result, exactly in
the order the Go code performs them.
-/

namespace Atto

/-- Errors that external calls or the pipeline itself can produce.
`accountNotFound` models the sentinel `atto.ErrAccountNotFound`;
`parseAmount` models `fmt.Errorf("cannot parse '%s' as an integer", …)`;
`confirmationDeclined` models the error returned by a declined send
confirmation; `transport` and `other` are opaque tags for arbitrary
failures of external collaborators. -/
inductive Err where
  | accountNotFound : Err
  | parseAmount : String → Err
  | confirmationDeclined : Err
  | transport : Nat → Err
  | other : Nat → Err
deriving DecidableEq

/-- A pending incoming transfer as returned by `account.FetchPending`:
the amount is a decimal string in raw units, `source` is the sending
address (field order as in the Go library's `Pending`). -/
structure Pending where
  amount : String
  source : String
deriving DecidableEq

mutual
/-- A frontier: the reference anchoring the next block.  It is either the
frontier string reported by the node for an already-opened account
(`ext`, with `ext ""` for the zero value of a never-fetched frontier) or
the result of a block created locally during this run (`blk`). -/
inductive Frontier where
  | ext : String → Frontier
  | blk : Block → Frontier

/-- A constructed block.  `openB rep src amt` is an Open block bound to a
representative and a pending transfer; `recvB prev src amt` is a Receive
block chained to the previous frontier; `changeB prev rep` a Change
block; `sendB prev amountStr recipient` a Send block. -/
inductive Block where
  | openB : String → String → Int → Block
  | recvB : Frontier → String → Int → Block
  | changeB : Frontier → String → Block
  | sendB : Frontier → String → String → Block
end

/-- The account state threaded through the pipeline, mirroring
`atto.AccountInfo`.  The library stores the balance as a decimal string of
raw units; the spec's data model declares it an integer in the smallest
unit, so it is carried here as `Int`. -/
structure AccountInfo where
  frontier : Frontier
  representative : String
  balance : Int

/-- The synthesized state used by `printBalance` when the node reports
the account as not found: `info.Balance = "0"`, all other fields left at
their zero values. -/
def synthInfo : AccountInfo :=
  { frontier := Frontier.ext "", representative := "", balance := 0 }

/-- Observable events, in program order: ledger queries, the sign /
work / submit calls on a block (with their outcome), the read of the
send-confirmation answer, and writes to stderr (`errText`) and stdout
(`outLine`). -/
inductive Ev where
  | callFetchInfo : Ev
  | callFetchPending : Ev
  | sign : Block → Bool → Ev
  | work : Block → Bool → Ev
  | submit : Block → Bool → Ev
  | confirmRead : Bool → Ev
  | errText : String → Ev
  | outLine : String → Ev

/-- Decimal digit value of a character, `none` for a non-digit. -/
def digitVal (c : Char) : Option Nat :=
  if '0' ≤ c ∧ c ≤ '9' then some (c.toNat - '0'.toNat) else none

/-- Accumulating base-10 parse of a digit list. -/
def parseDigitsAux : Nat → List Char → Option Nat
  | acc, [] => some acc
  | acc, c :: cs =>
    match digitVal c with
    | none => none
    | some d => parseDigitsAux (acc * 10 + d) cs

/-- Base-10 parse of a non-empty digit list. -/
def parseDigits : List Char → Option Nat
  | [] => none
  | l => parseDigitsAux 0 l

/-- Model of Go's `big.NewInt(0).SetString(s, 10)`: an optional sign
followed by at least one decimal digit; anything else fails. -/
def setString (s : String) : Option Int :=
  match s.data with
  | '+' :: rest => (parseDigits rest).map (fun n => (n : Int))
  | '-' :: rest => (parseDigits rest).map (fun n => -(n : Int))
  | l => (parseDigits l).map (fun n => (n : Int))

/-- Modelled from the spec: `rawToXNO` of `cmd/atto/util.go` (not under
`src/`), the raw-to-display conversion at the presentation boundary.  All
displayed amounts in the spec and README carry three fractional digits
(`1.025`, `0.100`, `1.337`, `1.125`), and the spec's scenario fixes the
display unit at `10^27` raw (`1125000000000000000000000000 ↦ "1.125"`). -/
def rawToXNO (raw : Int) : String :=
  let scale : Nat := 10 ^ 27
  let n := raw.toNat
  let frac := n % scale * 1000 / scale
  toString (n / scale) ++ "." ++ (toString (1000 + frac)).drop 1

/-- Modelled from the spec: the `defaultRepresentative` constant of
`cmd/atto/util.go` (not under `src/`); the spec flags its concrete value
as unspecified, so only its identity matters here. -/
def defaultRepresentative : String := "defaultRepresentative"

/-- Modelled from the spec: `account.FirstReceive(pending, rep)` —
`buildOpenBlock`: constructs the account's Open block bound to the default
representative and the pending transfer and returns the post-state whose
balance is the transfer amount, whose frontier is the new block, opened. -/
def firstReceive (p : Pending) (rep : String) (amt : Int) :
    AccountInfo × Block :=
  let b := Block.openB rep p.source amt
  ({ frontier := Frontier.blk b, representative := rep, balance := amt }, b)

/-- Modelled from the spec: `info.Receive(pending)` —
`buildReceiveBlock`: constructs a Receive block chained to the current
frontier and returns the post-state with the amount added to the balance
and the frontier moved to the new block. -/
def receiveBlock (info : AccountInfo) (p : Pending) (amt : Int) :
    AccountInfo × Block :=
  let b := Block.recvB info.frontier p.source amt
  ({ info with balance := info.balance + amt, frontier := Frontier.blk b }, b)

/-- The outcomes of every external call an invocation can make.  Each
per-block family (`constructErr`, `signErr`, `workErr`, `submitErr`) is
indexed by the block counter within the run; `none` means success. -/
structure Env where
  genSeed : Except Err String
  getSeed : Except Err String
  keyErr : Option Err
  accountErr : Option Err
  address : String
  fetchInfo : Except Err AccountInfo
  fetchPending : Except Err (List Pending)
  constructErr : Nat → Option Err
  signErr : Nat → Option Err
  workErr : Nat → Option Err
  submitErr : Nat → Option Err
  confirm : Bool
  yFlag : Bool

/-- The `block.Sign` / `block.FetchWork` / `block.Submit` /
`Fprintln(os.Stderr, "done")` tail shared verbatim by the receive loop
(lines 165–174), `changeRepresentative` (208–217) and `sendFunds`
(249–258): each call aborts the run on failure. -/
def signWorkSubmit (env : Env) (i : Nat) (b : Block) :
    List Ev × Option Err :=
  match env.signErr i with
  | some e => ([Ev.sign b false], some e)
  | none =>
    match env.workErr i with
    | some e => ([Ev.sign b true, Ev.work b false], some e)
    | none =>
      match env.submitErr i with
      | some e => ([Ev.sign b true, Ev.work b true, Ev.submit b false], some e)
      | none =>
        ([Ev.sign b true, Ev.work b true, Ev.submit b true,
          Ev.errText "done"], none)

/-- The receive loop of `printBalance` (lines 147–175): for each pending
transfer, parse its amount, print the narration, build the Open block
(when this is the very first block of the account) or a Receive block,
then sign / fetch work / submit, aborting on the first failure.  `i` is
the running block counter selecting this iteration's outcomes in `env`. -/
def drainLoop (env : Env) : Nat → Bool → AccountInfo → List Pending →
    List Ev × Except Err AccountInfo
  | _, _, info, [] => ([], Except.ok info)
  | i, firstRec, info, p :: rest =>
    match setString p.amount with
    | none => ([], Except.error (Err.parseAmount p.amount))
    | some amt =>
      let narr := Ev.errText ("Creating receive block for " ++ rawToXNO amt
        ++ " from " ++ p.source ++ "... ")
      let pre := if firstRec then [narr, Ev.errText "opening account... "]
        else [narr]
      match env.constructErr i with
      | some e => (pre, Except.error e)
      | none =>
        let ib := if firstRec then firstReceive p defaultRepresentative amt
          else receiveBlock info p amt
        match signWorkSubmit env i ib.2 with
        | (tr1, some e) => (pre ++ tr1, Except.error e)
        | (tr1, none) =>
          let rec1 := drainLoop env (i + 1) false ib.1 rest
          (pre ++ tr1 ++ rec1.1, rec1.2)

/-- `printBalance` from the pending query on (lines 143–181): fetch the
pending snapshot, drain it, then print the final balance to stdout. -/
def balanceCont (env : Env) (firstRec : Bool) (info : AccountInfo) :
    List Ev × Option Err :=
  match env.fetchPending with
  | Except.error e => ([Ev.callFetchPending], some e)
  | Except.ok ps =>
    match drainLoop env 0 firstRec info ps with
    | (tr, Except.error e) => (Ev.callFetchPending :: tr, some e)
    | (tr, Except.ok info') =>
      (Ev.callFetchPending :: tr ++ [Ev.outLine (rawToXNO info'.balance)],
        none)

/-- `printBalance` (lines 120–182): seed, key and account derivation,
then the account-state query — where `atto.ErrAccountNotFound` is consumed
by synthesizing a zero-balance state and marking the run a first
receive, while any other error aborts — then the drain. -/
def printBalance (env : Env) : List Ev × Option Err :=
  match env.getSeed with
  | Except.error e => ([], some e)
  | Except.ok _ =>
    match env.keyErr with
    | some e => ([], some e)
    | none =>
      match env.accountErr with
      | some e => ([], some e)
      | none =>
        match env.fetchInfo with
        | Except.error e =>
          if e = Err.accountNotFound then
            let c := balanceCont env true synthInfo
            (Ev.callFetchInfo :: c.1, c.2)
          else ([Ev.callFetchInfo], some e)
        | Except.ok info =>
          let c := balanceCont env false info
          (Ev.callFetchInfo :: c.1, c.2)

/-- Modelled from the spec: `info.Change(representative)` —
`buildChangeBlock`: a single Change block chained to the current
frontier. -/
def changeBlock (info : AccountInfo) (rep : String) : Block :=
  Block.changeB info.frontier rep

/-- Modelled from the spec: `info.Send(amount, recipient)` —
`buildSendBlock`: a single Send block from the current frontier, carrying
the amount string and destination it validates. -/
def sendBlock (info : AccountInfo) (amountStr recipient : String) : Block :=
  Block.sendB info.frontier amountStr recipient

/-- `changeRepresentative` (lines 184–219): seed, key and account
derivation, account-state query (any error, including not-found, aborts),
then one Change block: narrate, build, sign, fetch work, submit. -/
def changeRepresentative (env : Env) (representative : String) :
    List Ev × Option Err :=
  match env.getSeed with
  | Except.error e => ([], some e)
  | Except.ok _ =>
    match env.keyErr with
    | some e => ([], some e)
    | none =>
      match env.accountErr with
      | some e => ([], some e)
      | none =>
        match env.fetchInfo with
        | Except.error e => ([Ev.callFetchInfo], some e)
        | Except.ok info =>
          let pre := [Ev.callFetchInfo, Ev.errText "Creating change block... "]
          match env.constructErr 0 with
          | some e => (pre, some e)
          | none =>
            let s := signWorkSubmit env 0 (changeBlock info representative)
            (pre ++ s.1, s.2)

/-- Modelled from the spec: `letUserVerifySend(amount, recipient)` of
`cmd/atto/util.go` (not under `src/`) — the confirmation gate: with the
force flag (`-y`) set nothing is read; otherwise the user's answer is
read from the confirmation channel and a decline aborts. -/
def letUserVerifySend (env : Env) : List Ev × Option Err :=
  if env.yFlag then ([], none)
  else if env.confirm then ([Ev.confirmRead true], none)
  else ([Ev.confirmRead false], some Err.confirmationDeclined)

/-- `sendFunds` (lines 221–260): seed, key and account derivation, the
confirmation gate, account-state query (any error aborts), then one Send
block: narrate, build, sign, fetch work, submit. -/
def sendFunds (env : Env) (amountStr recipient : String) :
    List Ev × Option Err :=
  match env.getSeed with
  | Except.error e => ([], some e)
  | Except.ok _ =>
    match env.keyErr with
    | some e => ([], some e)
    | none =>
      match env.accountErr with
      | some e => ([], some e)
      | none =>
        match letUserVerifySend env with
        | (tr0, some e) => (tr0, some e)
        | (tr0, none) =>
          match env.fetchInfo with
          | Except.error e => (tr0 ++ [Ev.callFetchInfo], some e)
          | Except.ok info =>
            let pre := tr0 ++ [Ev.callFetchInfo,
              Ev.errText "Creating send block... "]
            match env.constructErr 0 with
            | some e => (pre, some e)
            | none =>
              let s := signWorkSubmit env 0 (sendBlock info amountStr recipient)
              (pre ++ s.1, s.2)

/-- `printNewSeed` (lines 96–102): generate a seed and print it. -/
def printNewSeed (env : Env) : List Ev × Option Err :=
  match env.genSeed with
  | Except.error e => ([], some e)
  | Except.ok s => ([Ev.outLine s], none)

/-- `printAddress` (lines 104–118): seed, key and account derivation,
then print the address. -/
def printAddress (env : Env) : List Ev × Option Err :=
  match env.getSeed with
  | Except.error e => ([], some e)
  | Except.ok _ =>
    match env.keyErr with
    | some e => ([], some e)
    | none =>
      match env.accountErr with
      | some e => ([], some e)
      | none => ([Ev.outLine env.address], none)

/-- The final fate of a process invocation: a clean exit with a code, or
a runtime panic (Go panics when slicing `flag.Arg(0)[:1]` of an empty
argument). -/
inductive Outcome where
  | exited : Nat → Outcome
  | panicked : Outcome
deriving DecidableEq

/-- The usage text printed by `flag.Usage` on a usage error. -/
def usageText : String :=
  "Usage:\n\tatto -v\n\tatto n[ew]\n\tatto [-a ACCOUNT_INDEX] a[ddress]\n\tatto [-a ACCOUNT_INDEX] b[alance]\n\tatto [-a ACCOUNT_INDEX] r[epresentative] REPRESENTATIVE\n\tatto [-a ACCOUNT_INDEX] [-y] s[end] AMOUNT RECEIVER\n"

/-- The argument-count check of `init` (lines 61–69): the switch on the
first character of the first positional argument. -/
def argsOk (c : Char) (nrest : Nat) : Bool :=
  if c = 'n' || c = 'a' || c = 'b' then nrest == 0
  else if c = 'r' then nrest == 1
  else if c = 's' then nrest == 2
  else false

/-- The error message rendering of `main` (line 91). -/
def errMsg : Err → String
  | Err.accountNotFound => "account has not yet been opened"
  | Err.parseAmount s => "cannot parse '" ++ s ++ "' as an integer"
  | Err.confirmationDeclined => "send aborted"
  | Err.transport n => "transport error " ++ toString n
  | Err.other n => "error " ++ toString n

/-- The dispatch of `main` (lines 76–89) on the first character of the
first positional argument, once `init` has accepted the argument count. -/
def runCommand (env : Env) (c : Char) (rest : List String) :
    List Ev × Option Err :=
  if c = 'n' then printNewSeed env
  else if c = 'a' then printAddress env
  else if c = 'b' then printBalance env
  else if c = 'r' then changeRepresentative env (rest.getD 0 "")
  else sendFunds env (rest.getD 0 "") (rest.getD 1 "")

/-- The error handling of `main` (lines 90–93): a failed operation has
its error printed to stderr and exits 2, a successful one exits 0. -/
def finishOp : List Ev × Option Err → List Ev × Outcome
  | (tr, some e) =>
    (tr ++ [Ev.errText ("Error: " ++ errMsg e ++ "\n")], Outcome.exited 2)
  | (tr, none) => (tr, Outcome.exited 0)

/-- The whole invocation, `init` (lines 46–74) then `main` (lines 76–94):
the `-v` flag prints the version and exits 0 before anything else; a
missing or ill-shaped command prints the usage and exits 1; otherwise the
selected operation runs, and its error, if any, is printed and turned
into exit code 2. -/
def runAtto (env : Env) (vFlag : Bool) (args : List String) :
    List Ev × Outcome :=
  if vFlag then ([Ev.outLine "1.3.0"], Outcome.exited 0)
  else
    match args with
    | [] => ([Ev.errText usageText], Outcome.exited 1)
    | a :: rest =>
      match a.data with
      | [] => ([], Outcome.panicked)
      | c :: _ =>
        if argsOk c rest.length then finishOp (runCommand env c rest)
        else ([Ev.errText usageText], Outcome.exited 1)

/-! ## Trace observations -/

/-- The blocks carried by submit events, in order. -/
def submits : List Ev → List Block
  | [] => []
  | Ev.submit b _ :: t => b :: submits t
  | _ :: t => submits t

/-- The blocks carried by sign events, in order: every block the run
constructed is signed immediately after construction, so this is the
list of constructed blocks. -/
def signedBlocks : List Ev → List Block
  | [] => []
  | Ev.sign b _ :: t => b :: signedBlocks t
  | _ :: t => signedBlocks t

/-- The lines written to stdout, in order. -/
def outLines : List Ev → List String
  | [] => []
  | Ev.outLine s :: t => s :: outLines t
  | _ :: t => outLines t

/-- The texts written to stderr, in order. -/
def errTexts : List Ev → List String
  | [] => []
  | Ev.errText s :: t => s :: errTexts t
  | _ :: t => errTexts t

/-- Whether an event is a call on the Ledger Client (queries, signing,
work fetch, submission) as opposed to console traffic. -/
def isLedgerCall : Ev → Bool
  | Ev.callFetchInfo => true
  | Ev.callFetchPending => true
  | Ev.sign _ _ => true
  | Ev.work _ _ => true
  | Ev.submit _ _ => true
  | Ev.confirmRead _ => false
  | Ev.errText _ => false
  | Ev.outLine _ => false

/-- The Ledger Client calls of a trace. -/
def ledgerCalls (tr : List Ev) : List Ev := tr.filter isLedgerCall

/-- Whether a block is an Open block. -/
def isOpenB : Block → Bool
  | Block.openB _ _ _ => true
  | _ => false

/-- Whether a block is a Receive block. -/
def isRecvB : Block → Bool
  | Block.recvB _ _ _ => true
  | _ => false

/-- The previous-frontier reference of a block (`none` for Open, which
starts the chain). -/
def prevOf : Block → Option Frontier
  | Block.openB _ _ _ => none
  | Block.recvB f _ _ => some f
  | Block.changeB f _ => some f
  | Block.sendB f _ _ => some f

/-- `chainedAfter f bs`: each block of `bs` is chained to the resulting
frontier of its immediate predecessor, the first one to `f`. -/
def chainedAfter : Frontier → List Block → Prop
  | _, [] => True
  | f, b :: rest => prevOf b = some f ∧ chainedAfter (Frontier.blk b) rest

/-- The amount of a pending transfer as the drain parses it. -/
def amtOf (p : Pending) : Int := (setString p.amount).getD 0

/-- Reference run of a fully successful drain: the blocks it constructs
and the final account state, mirroring one `firstReceive` /
`receiveBlock` step per pending transfer. -/
def drainSpec : Bool → AccountInfo → List Pending →
    List Block × AccountInfo
  | _, info, [] => ([], info)
  | firstRec, info, p :: rest =>
    let ib := if firstRec then firstReceive p defaultRepresentative (amtOf p)
      else receiveBlock info p (amtOf p)
    let r := drainSpec false ib.1 rest
    (ib.2 :: r.1, r.2)

/-- `openChained bs`: the first block starts a chain (no previous
reference) and every later block is chained to the resulting frontier of
its immediate predecessor. -/
def openChained : List Block → Prop
  | [] => True
  | b :: rest => prevOf b = none ∧ chainedAfter (Frontier.blk b) rest

/-- The seed read and the key/account derivations succeed (lines
121–132): the run reaches the ledger. -/
def setupOk (env : Env) : Prop :=
  (∃ s, env.getSeed = Except.ok s) ∧ env.keyErr = none ∧
    env.accountErr = none

/-- Every per-block external call of the run succeeds. -/
def noFailures (env : Env) : Prop :=
  (∀ n, env.constructErr n = none) ∧ (∀ n, env.signErr n = none) ∧
    (∀ n, env.workErr n = none) ∧ (∀ n, env.submitErr n = none)

/-- Every pending amount is a valid base-10 integer string. -/
def allParse (ps : List Pending) : Prop :=
  ∀ p ∈ ps, (setString p.amount).isSome = true

instance decAllParse (ps : List Pending) : Decidable (allParse ps) :=
  inferInstanceAs (Decidable (∀ p ∈ ps, (setString p.amount).isSome = true))

/-! ## Basic trace computation lemmas -/

@[simp] lemma submits_append (l1 l2 : List Ev) :
    submits (l1 ++ l2) = submits l1 ++ submits l2 := by
  induction l1 with
  | nil => rfl
  | cons e t ih => cases e <;> simp [submits, ih]

@[simp] lemma signedBlocks_append (l1 l2 : List Ev) :
    signedBlocks (l1 ++ l2) = signedBlocks l1 ++ signedBlocks l2 := by
  induction l1 with
  | nil => rfl
  | cons e t ih => cases e <;> simp [signedBlocks, ih]

@[simp] lemma outLines_append (l1 l2 : List Ev) :
    outLines (l1 ++ l2) = outLines l1 ++ outLines l2 := by
  induction l1 with
  | nil => rfl
  | cons e t ih => cases e <;> simp [outLines, ih]

@[simp] lemma errTexts_append (l1 l2 : List Ev) :
    errTexts (l1 ++ l2) = errTexts l1 ++ errTexts l2 := by
  induction l1 with
  | nil => rfl
  | cons e t ih => cases e <;> simp [errTexts, ih]

/-- `signWorkSubmit` when every call succeeds. -/
lemma signWorkSubmit_ok (env : Env) (i : Nat)
    (h1 : env.signErr i = none) (h2 : env.workErr i = none)
    (h3 : env.submitErr i = none) (b : Block) :
    signWorkSubmit env i b =
      ([Ev.sign b true, Ev.work b true, Ev.submit b true,
        Ev.errText "done"], none) := by
  simp [signWorkSubmit, h1, h2, h3]

/-! ## The fully-successful drain -/

/-- Under per-block success and parseable amounts, the receive loop
matches the reference run `drainSpec`: it succeeds with the reference
final state, submits and signs exactly the reference blocks, and writes
nothing to stdout. -/
lemma drainLoop_ok (env : Env)
    (hc : ∀ n, env.constructErr n = none) (hs : ∀ n, env.signErr n = none)
    (hw : ∀ n, env.workErr n = none) (hb : ∀ n, env.submitErr n = none) :
    ∀ (ps : List Pending), allParse ps →
      ∀ (i : Nat) (fr : Bool) (info : AccountInfo),
      (drainLoop env i fr info ps).2 =
          Except.ok (drainSpec fr info ps).2 ∧
        submits (drainLoop env i fr info ps).1 = (drainSpec fr info ps).1 ∧
        signedBlocks (drainLoop env i fr info ps).1 =
          (drainSpec fr info ps).1 ∧
        outLines (drainLoop env i fr info ps).1 = [] := by
  intro ps
  induction ps with
  | nil =>
    intro _ i fr info
    simp [drainLoop, drainSpec, submits, signedBlocks, outLines]
  | cons p rest ih =>
    intro hp i fr info
    obtain ⟨amt, hamt⟩ : ∃ a, setString p.amount = some a :=
      Option.isSome_iff_exists.mp (hp p (List.mem_cons_self p rest))
    have hrest : allParse rest := fun q hq => hp q (List.mem_cons_of_mem p hq)
    have hamt' : amtOf p = amt := by simp [amtOf, hamt]
    cases fr with
    | true =>
      have hrec := ih hrest (i + 1) false
        (firstReceive p defaultRepresentative amt).1
      simp only [drainLoop, hamt, hc i,
        signWorkSubmit_ok env i (hs i) (hw i) (hb i), drainSpec, hamt',
        if_true] at hrec ⊢
      simp [submits, signedBlocks, outLines, hrec.1, hrec.2.1, hrec.2.2.1,
        hrec.2.2.2]
    | false =>
      have hrec := ih hrest (i + 1) false (receiveBlock info p amt).1
      simp only [drainLoop, hamt, hc i,
        signWorkSubmit_ok env i (hs i) (hw i) (hb i), drainSpec, hamt',
        if_false] at hrec ⊢
      simp [submits, signedBlocks, outLines, hrec.1, hrec.2.1, hrec.2.2.1,
        hrec.2.2.2]

/-! ## Reference-run facts -/

/-- A successful drain of an already-opened account adds the parsed
amounts to the balance. -/
lemma drainSpec_false_balance :
    ∀ (ps : List Pending) (info : AccountInfo),
      (drainSpec false info ps).2.balance =
        info.balance + (ps.map amtOf).sum := by
  intro ps
  induction ps with
  | nil => intro info; simp [drainSpec]
  | cons p rest ih =>
    intro info
    simp [drainSpec, receiveBlock, ih, add_assoc]

/-- The reference run constructs one block per pending transfer. -/
lemma drainSpec_length :
    ∀ (ps : List Pending) (fr : Bool) (info : AccountInfo),
      (drainSpec fr info ps).1.length = ps.length := by
  intro ps
  induction ps with
  | nil => intro fr info; simp [drainSpec]
  | cons p rest ih =>
    intro fr info
    cases fr <;> simp [drainSpec, ih]

/-- Every block of a non-first reference run is a Receive block. -/
lemma drainSpec_false_recv :
    ∀ (ps : List Pending) (info : AccountInfo) (b : Block),
      b ∈ (drainSpec false info ps).1 → isRecvB b = true := by
  intro ps
  induction ps with
  | nil => intro info b hb; simp [drainSpec] at hb
  | cons p rest ih =>
    intro info b hb
    simp only [drainSpec, if_false] at hb
    rcases List.mem_cons.mp hb with h | h
    · subst h; rfl
    · exact ih _ b h

/-- The non-first reference run is chained: its first block references
the starting frontier and every later one its predecessor's block. -/
lemma drainSpec_false_chain :
    ∀ (ps : List Pending) (info : AccountInfo),
      chainedAfter info.frontier (drainSpec false info ps).1 := by
  intro ps
  induction ps with
  | nil => intro info; simp [drainSpec, chainedAfter]
  | cons p rest ih =>
    intro info
    simp only [drainSpec, if_false]
    refine ⟨rfl, ?_⟩
    have := ih (receiveBlock info p (amtOf p)).1
    simpa [receiveBlock] using this

/-! ## The drain aborted by a proof-of-work failure -/

/-- `signWorkSubmit` when the work fetch fails. -/
lemma signWorkSubmit_workfail (env : Env) (i : Nat) (e : Err)
    (h1 : env.signErr i = none) (h2 : env.workErr i = some e) (b : Block) :
    signWorkSubmit env i b =
      ([Ev.sign b true, Ev.work b false], some e) := by
  simp [signWorkSubmit, h1, h2]

/-- If every call up to block `m` succeeds and the work fetch of block
`m` fails, the receive loop aborts with that error having submitted
exactly the first `m - i` reference blocks. -/
lemma drainLoop_workfail (env : Env) (m : Nat) (e : Err)
    (hlt : ∀ n, n < m → env.constructErr n = none ∧ env.signErr n = none ∧
      env.workErr n = none ∧ env.submitErr n = none)
    (hcm : env.constructErr m = none) (hsm : env.signErr m = none)
    (hwm : env.workErr m = some e) :
    ∀ (ps : List Pending), allParse ps →
      ∀ (i : Nat) (fr : Bool) (info : AccountInfo),
      i ≤ m → m < i + ps.length →
      (drainLoop env i fr info ps).2 = Except.error e ∧
        submits (drainLoop env i fr info ps).1 =
          ((drainSpec fr info ps).1).take (m - i) := by
  intro ps
  induction ps with
  | nil => intro _ i fr info hi hm; simp at hm; omega
  | cons p rest ih =>
    intro hp i fr info hi hm
    obtain ⟨amt, hamt⟩ : ∃ a, setString p.amount = some a :=
      Option.isSome_iff_exists.mp (hp p (List.mem_cons_self p rest))
    have hrest : allParse rest := fun q hq => hp q (List.mem_cons_of_mem p hq)
    have hamt' : amtOf p = amt := by simp [amtOf, hamt]
    rcases Nat.lt_or_ge i m with hlt' | hge
    · obtain ⟨hci, hsi, hwi, hbi⟩ := hlt i hlt'
      obtain ⟨k, hk1, hk2⟩ : ∃ k, m - i = k + 1 ∧ m - (i + 1) = k :=
        ⟨m - (i + 1), by omega, rfl⟩
      cases fr with
      | true =>
        have hrec := ih hrest (i + 1) false
          (firstReceive p defaultRepresentative amt).1 (by omega) (by
            simpa [Nat.add_comm, Nat.add_left_comm] using hm)
        simp only [drainLoop, hamt, hci,
          signWorkSubmit_ok env i hsi hwi hbi, drainSpec, hamt', if_true]
        simp [submits, hrec.1, hrec.2, hk1, hk2]
      | false =>
        have hrec := ih hrest (i + 1) false (receiveBlock info p amt).1
          (by omega) (by simpa [Nat.add_comm, Nat.add_left_comm] using hm)
        simp only [drainLoop, hamt, hci,
          signWorkSubmit_ok env i hsi hwi hbi, drainSpec, hamt', if_false]
        simp [submits, hrec.1, hrec.2, hk1, hk2]
    · have him : i = m := le_antisymm hi hge
      subst him
      cases fr with
      | true =>
        simp only [drainLoop, hamt, hcm,
          signWorkSubmit_workfail env i e hsm hwm, if_true]
        simp [submits]
      | false =>
        simp only [drainLoop, hamt, hcm,
          signWorkSubmit_workfail env i e hsm hwm, if_false]
        simp [submits]

/-! ## Open blocks in the constructed-block stream -/

/-- Whatever the outcomes, the sign trace of one `signWorkSubmit` call
is exactly its block. -/
@[simp] lemma signedBlocks_sws (env : Env) (i : Nat) (b : Block) :
    signedBlocks (signWorkSubmit env i b).1 = [b] := by
  cases h1 : env.signErr i <;> cases h2 : env.workErr i <;>
    cases h3 : env.submitErr i <;>
    simp [signWorkSubmit, h1, h2, h3, signedBlocks]

/-- A drain not performing the first receive never constructs an Open
block, whatever the call outcomes. -/
lemma drainLoop_false_noopen (env : Env) :
    ∀ (ps : List Pending) (i : Nat) (info : AccountInfo) (b : Block),
      b ∈ signedBlocks (drainLoop env i false info ps).1 →
      isOpenB b = false := by
  intro ps
  induction ps with
  | nil => intro i info b hb; simp [drainLoop, signedBlocks] at hb
  | cons p rest ih =>
    intro i info b hb
    cases hamt : setString p.amount with
    | none => simp [drainLoop, hamt, signedBlocks] at hb
    | some amt =>
      rcases hsws : signWorkSubmit env i
          (receiveBlock info p amt).2 with ⟨tr1, res1⟩
      have htr1 : signedBlocks tr1 = [(receiveBlock info p amt).2] := by
        have h0 := signedBlocks_sws env i (receiveBlock info p amt).2
        rw [hsws] at h0
        exact h0
      cases hce : env.constructErr i with
      | some e => simp [drainLoop, hamt, hce, signedBlocks] at hb
      | none =>
        cases res1 with
        | some e =>
          simp [drainLoop, hamt, hce, hsws, htr1, signedBlocks] at hb
          subst hb
          rfl
        | none =>
          simp [drainLoop, hamt, hce, hsws, htr1, signedBlocks] at hb
          rcases hb with hb | hb
          · subst hb; rfl
          · exact ih (i + 1) (receiveBlock info p amt).1 b hb

/-- Whatever the outcomes, every constructed block after the first one
of a drain is not an Open block. -/
lemma drainLoop_drop1_noopen (env : Env) :
    ∀ (ps : List Pending) (i : Nat) (fr : Bool) (info : AccountInfo)
      (b : Block),
      b ∈ (signedBlocks (drainLoop env i fr info ps).1).drop 1 →
      isOpenB b = false := by
  intro ps i fr info b hb
  cases fr with
  | false =>
    exact drainLoop_false_noopen env ps i info b (List.mem_of_mem_drop hb)
  | true =>
    cases ps with
    | nil => simp [drainLoop, signedBlocks] at hb
    | cons p rest =>
      cases hamt : setString p.amount with
      | none => simp [drainLoop, hamt, signedBlocks] at hb
      | some amt =>
        rcases hsws : signWorkSubmit env i
            (firstReceive p defaultRepresentative amt).2 with ⟨tr1, res1⟩
        have htr1 : signedBlocks tr1 =
            [(firstReceive p defaultRepresentative amt).2] := by
          have h0 := signedBlocks_sws env i
            (firstReceive p defaultRepresentative amt).2
          rw [hsws] at h0
          exact h0
        cases hce : env.constructErr i with
        | some e => simp [drainLoop, hamt, hce, signedBlocks] at hb
        | none =>
          cases res1 with
          | some e =>
            simp [drainLoop, hamt, hce, hsws, htr1, signedBlocks] at hb
          | none =>
            simp [drainLoop, hamt, hce, hsws, htr1, signedBlocks] at hb
            exact drainLoop_false_noopen env rest (i + 1)
              (firstReceive p defaultRepresentative amt).1 b hb

/-! ## Submission is guarded by signing and work -/

/-- Every submit call in the trace was preceded by a successful sign
call and a successful work fetch for the very same block. -/
def SubmitsGuarded (tr : List Ev) : Prop :=
  ∀ (l : List Ev) (b : Block) (ok : Bool) (r : List Ev),
    tr = l ++ Ev.submit b ok :: r →
    Ev.sign b true ∈ l ∧ Ev.work b true ∈ l

lemma submitsGuarded_nil : SubmitsGuarded [] := by
  intro l b ok r h
  exact absurd h (by simp)

lemma submitsGuarded_cons (e : Ev) (t : List Ev)
    (he : ∀ b ok, e ≠ Ev.submit b ok) (ht : SubmitsGuarded t) :
    SubmitsGuarded (e :: t) := by
  intro l b ok r h
  cases l with
  | nil =>
    injection h with h1 _
    exact absurd h1 (he b ok)
  | cons x l' =>
    injection h with h1 h2
    obtain ⟨hsg, hwk⟩ := ht l' b ok r h2
    exact ⟨List.mem_cons_of_mem x hsg, List.mem_cons_of_mem x hwk⟩

lemma submitsGuarded_swsd (b : Block) (ok : Bool) (t : List Ev)
    (ht : SubmitsGuarded t) :
    SubmitsGuarded
      (Ev.sign b true :: Ev.work b true :: Ev.submit b ok :: t) := by
  intro l b' ok' r h
  cases l with
  | nil =>
    injection h with h1 _
    exact Ev.noConfusion h1
  | cons x l1 =>
    injection h with hx h2
    cases l1 with
    | nil =>
      injection h2 with h3 _
      exact Ev.noConfusion h3
    | cons y l2 =>
      injection h2 with hy h3
      cases l2 with
      | nil =>
        injection h3 with h4 _
        have hb : b = b' := by
          injection h4 with hb _
        subst hb
        subst hx
        subst hy
        exact ⟨List.mem_cons_self _ _,
          List.mem_cons_of_mem _ (List.mem_cons_self _ _)⟩
      | cons z l3 =>
        injection h3 with hz h4
        obtain ⟨hsg, hwk⟩ := ht l3 b' ok' r h4
        exact ⟨List.mem_cons_of_mem x (List.mem_cons_of_mem y
            (List.mem_cons_of_mem z hsg)),
          List.mem_cons_of_mem x (List.mem_cons_of_mem y
            (List.mem_cons_of_mem z hwk))⟩

/-- A `signWorkSubmit` trace followed by a guarded continuation is
guarded. -/
lemma submitsGuarded_sws (env : Env) (i : Nat) (b : Block) (t : List Ev)
    (ht : SubmitsGuarded t) :
    SubmitsGuarded ((signWorkSubmit env i b).1 ++ t) := by
  cases h1 : env.signErr i with
  | some e =>
    simp only [signWorkSubmit, h1, List.cons_append, List.nil_append]
    exact submitsGuarded_cons _ _ (by intro b' ok h; exact Ev.noConfusion h) ht
  | none =>
    cases h2 : env.workErr i with
    | some e =>
      simp only [signWorkSubmit, h1, h2, List.cons_append, List.nil_append]
      refine submitsGuarded_cons _ _ (by intro b' ok h; exact Ev.noConfusion h)
        (submitsGuarded_cons _ _ (by intro b' ok h; exact Ev.noConfusion h) ht)
    | none =>
      cases h3 : env.submitErr i with
      | some e =>
        simp only [signWorkSubmit, h1, h2, h3, List.cons_append,
          List.nil_append]
        exact submitsGuarded_swsd b false t ht
      | none =>
        simp only [signWorkSubmit, h1, h2, h3, List.cons_append,
          List.nil_append]
        exact submitsGuarded_swsd b true _ (submitsGuarded_cons _ _
          (by intro b' ok h; exact Ev.noConfusion h) ht)

/-- The whole receive loop is guarded, whatever the call outcomes. -/
lemma drainLoop_guarded (env : Env) :
    ∀ (ps : List Pending) (i : Nat) (fr : Bool) (info : AccountInfo),
      SubmitsGuarded (drainLoop env i fr info ps).1 := by
  intro ps
  induction ps with
  | nil => intro i fr info; exact submitsGuarded_nil
  | cons p rest ih =>
    intro i fr info
    cases hamt : setString p.amount with
    | none => simp only [drainLoop, hamt]; exact submitsGuarded_nil
    | some amt =>
      have hpre : ∀ (t : List Ev), SubmitsGuarded t → SubmitsGuarded
          ((if fr then [Ev.errText ("Creating receive block for "
              ++ rawToXNO amt ++ " from " ++ p.source ++ "... "),
              Ev.errText "opening account... "]
            else [Ev.errText ("Creating receive block for "
              ++ rawToXNO amt ++ " from " ++ p.source ++ "... ")]) ++ t) := by
        intro t ht
        cases fr <;>
          simp only [if_true, if_false, Bool.false_eq_true, ite_true,
            ite_false, List.cons_append, List.nil_append] <;>
        · first
          | exact submitsGuarded_cons _ _
              (by intro b' ok h; exact Ev.noConfusion h) ht
          | exact submitsGuarded_cons _ _
              (by intro b' ok h; exact Ev.noConfusion h)
              (submitsGuarded_cons _ _
                (by intro b' ok h; exact Ev.noConfusion h) ht)
      rcases hsws : signWorkSubmit env i
          ((if fr then firstReceive p defaultRepresentative amt
            else receiveBlock info p amt).2) with ⟨tr1, res1⟩
      cases hce : env.constructErr i with
      | some e =>
        simp only [drainLoop, hamt, hce]
        have h0 := hpre [] submitsGuarded_nil
        rw [List.append_nil] at h0
        exact h0
      | none =>
        cases res1 with
        | some e =>
          have h0 := submitsGuarded_sws env i
            ((if fr then firstReceive p defaultRepresentative amt
              else receiveBlock info p amt).2) [] submitsGuarded_nil
          rw [hsws, List.append_nil] at h0
          simp only [drainLoop, hamt, hce, hsws]
          exact hpre tr1 h0
        | none =>
          have h0 := submitsGuarded_sws env i
            ((if fr then firstReceive p defaultRepresentative amt
              else receiveBlock info p amt).2)
            (drainLoop env (i + 1) false
              (if fr then firstReceive p defaultRepresentative amt
                else receiveBlock info p amt).1 rest).1
            (ih (i + 1) false _)
          rw [hsws] at h0
          simp only [drainLoop, hamt, hce, hsws, List.append_assoc]
          exact hpre _ h0

/-! ## The confirmation gate precedes ledger traffic -/

/-- Every ledger call in the trace happens after an affirmative
confirmation read. -/
def ConfirmFirst (tr : List Ev) : Prop :=
  ∀ (l : List Ev) (e : Ev) (r : List Ev),
    tr = l ++ e :: r → isLedgerCall e = true → Ev.confirmRead true ∈ l

lemma confirmFirst_of_no_ledger (tr : List Ev)
    (h : ∀ e ∈ tr, isLedgerCall e = false) : ConfirmFirst tr := by
  intro l e r htr hl
  have he : e ∈ tr := by
    rw [htr]
    exact List.mem_append_right l (List.mem_cons_self e r)
  rw [h e he] at hl
  exact absurd hl (by simp)

lemma confirmFirst_head (t : List Ev) :
    ConfirmFirst (Ev.confirmRead true :: t) := by
  intro l e r h hl
  cases l with
  | nil =>
    injection h with h1 _
    rw [← h1] at hl
    simp [isLedgerCall] at hl
  | cons x l' =>
    injection h with h1 _
    rw [h1]
    exact List.mem_cons_self x l'

/-! ## Unfolding the balance operation -/

/-- When setup succeeds and the account is not found, `printBalance`
continues with the synthesized state and a first receive. -/
lemma printBalance_notFound (env : Env) (hsetup : setupOk env)
    (hinfo : env.fetchInfo = Except.error Err.accountNotFound) :
    printBalance env =
      (Ev.callFetchInfo :: (balanceCont env true synthInfo).1,
        (balanceCont env true synthInfo).2) := by
  obtain ⟨⟨s, hs⟩, hk, ha⟩ := hsetup
  simp [printBalance, hs, hk, ha, hinfo]

/-- When setup succeeds and the account is found, `printBalance`
continues with the fetched state and no first receive. -/
lemma printBalance_found (env : Env) (info : AccountInfo)
    (hsetup : setupOk env) (hinfo : env.fetchInfo = Except.ok info) :
    printBalance env =
      (Ev.callFetchInfo :: (balanceCont env false info).1,
        (balanceCont env false info).2) := by
  obtain ⟨⟨s, hs⟩, hk, ha⟩ := hsetup
  simp [printBalance, hs, hk, ha, hinfo]

/-- When setup succeeds and the account query fails with anything but
not-found, `printBalance` aborts at once. -/
lemma printBalance_fetchfail (env : Env) (e : Err)
    (hsetup : setupOk env) (hinfo : env.fetchInfo = Except.error e)
    (hne : e ≠ Err.accountNotFound) :
    printBalance env = ([Ev.callFetchInfo], some e) := by
  obtain ⟨⟨s, hs⟩, hk, ha⟩ := hsetup
  simp [printBalance, hs, hk, ha, hinfo, hne]

/-- The shape of the reference run on a never-opened account: one block
per pending transfer, the first an Open block, the rest Receive blocks,
each chained to its predecessor, and the final balance the sum of the
parsed amounts. -/
lemma drainSpec_unopened (ps : List Pending) :
    ((drainSpec true synthInfo ps).1).length = ps.length ∧
      (∀ b, ((drainSpec true synthInfo ps).1).head? = some b →
        isOpenB b = true) ∧
      (∀ b ∈ ((drainSpec true synthInfo ps).1).drop 1, isRecvB b = true) ∧
      openChained ((drainSpec true synthInfo ps).1) ∧
      (drainSpec true synthInfo ps).2.balance = (ps.map amtOf).sum := by
  cases ps with
  | nil =>
    refine ⟨rfl, ?_, ?_, trivial, rfl⟩
    · intro b h; exact Option.noConfusion h
    · intro b h; simp [drainSpec] at h
  | cons p rest =>
    refine ⟨?_, ?_, ?_, ?_, ?_⟩
    · simp [drainSpec, drainSpec_length]
    · intro b h
      simp only [drainSpec, if_true] at h
      injection h with h1
      rw [← h1]
      rfl
    · intro b hb
      simp only [drainSpec, if_true, List.drop_succ_cons, List.drop_zero]
        at hb
      exact drainSpec_false_recv rest _ b hb
    · refine ⟨rfl, ?_⟩
      have h0 := drainSpec_false_chain rest
        (firstReceive p defaultRepresentative (amtOf p)).1
      simpa [firstReceive] using h0
    · simp [drainSpec, drainSpec_false_balance, firstReceive]

/-- C1: for every sequence of N pending transfers returned by the
pending query, draining a previously-unopened account succeeds, submits
exactly N blocks — the first an Open block, the remaining N−1 Receive
blocks, each chained to the immediately preceding block's resulting
frontier — and prints a final balance equal to the sum of the N
amounts. -/
theorem balance_drain_unopened (env : Env) (ps : List Pending)
    (hsetup : setupOk env) (hnf : noFailures env)
    (hinfo : env.fetchInfo = Except.error Err.accountNotFound)
    (hps : env.fetchPending = Except.ok ps) (hpar : allParse ps) :
    (printBalance env).2 = none ∧
      (submits (printBalance env).1).length = ps.length ∧
      (∀ b, (submits (printBalance env).1).head? = some b →
        isOpenB b = true) ∧
      (∀ b ∈ (submits (printBalance env).1).drop 1, isRecvB b = true) ∧
      openChained (submits (printBalance env).1) ∧
      outLines (printBalance env).1 = [rawToXNO ((ps.map amtOf).sum)] := by
  obtain ⟨hc, hsg, hw, hb⟩ := hnf
  have hd := drainLoop_ok env hc hsg hw hb ps hpar 0 true synthInfo
  rcases hdl : drainLoop env 0 true synthInfo ps with ⟨tr, res⟩
  rw [hdl] at hd
  obtain ⟨hres, hsub, hsgn, hout⟩ := hd
  simp only at hres hsub hsgn hout
  subst hres
  have hbc : balanceCont env true synthInfo =
      (Ev.callFetchPending :: tr ++
        [Ev.outLine (rawToXNO (drainSpec true synthInfo ps).2.balance)],
        none) := by
    simp [balanceCont, hps, hdl]
  have hpb := printBalance_notFound env hsetup hinfo
  rw [hbc] at hpb
  dsimp only at hpb
  obtain ⟨hlen, hhead, hdrop, hchain, hbal⟩ := drainSpec_unopened ps
  rw [hpb]
  dsimp only
  refine ⟨rfl, ?_, ?_, ?_, ?_, ?_⟩
  · simp [submits, hsub, hlen]
  · intro b h
    apply hhead
    simpa [submits, hsub] using h
  · intro b h
    apply hdrop
    simpa [submits, hsub] using h
  · have h2 : submits (Ev.callFetchInfo :: (Ev.callFetchPending :: tr ++
        [Ev.outLine (rawToXNO (drainSpec true synthInfo ps).2.balance)])) =
        (drainSpec true synthInfo ps).1 := by
      simp [submits, hsub]
    rw [h2]
    exact hchain
  · simp [outLines, hout, hbal]

/-! ## Concrete environments for instantiating the theorems -/

/-- An environment in which the account is unopened, the pending query
returns `ps` and every external call succeeds. -/
def envUnopened (ps : List Pending) : Env :=
  { genSeed := Except.ok "SEED"
    getSeed := Except.ok "SEED"
    keyErr := none
    accountErr := none
    address := "addr"
    fetchInfo := Except.error Err.accountNotFound
    fetchPending := Except.ok ps
    constructErr := fun _ => none
    signErr := fun _ => none
    workErr := fun _ => none
    submitErr := fun _ => none
    confirm := true
    yFlag := false }

/-- A sample pending transfer. -/
def wPending1 : Pending := { amount := "5", source := "srcA" }

/-- A second sample pending transfer. -/
def wPending2 : Pending := { amount := "7", source := "srcB" }

theorem balance_drain_unopened_witness :
    allParse [wPending1, wPending2] ∧
      ((printBalance (envUnopened [wPending1, wPending2])).2 = none ∧
        (submits (printBalance
          (envUnopened [wPending1, wPending2])).1).length =
          [wPending1, wPending2].length ∧
        (∀ b, (submits (printBalance
          (envUnopened [wPending1, wPending2])).1).head? = some b →
          isOpenB b = true) ∧
        (∀ b ∈ (submits (printBalance
          (envUnopened [wPending1, wPending2])).1).drop 1,
          isRecvB b = true) ∧
        openChained (submits (printBalance
          (envUnopened [wPending1, wPending2])).1) ∧
        outLines (printBalance (envUnopened [wPending1, wPending2])).1 =
          [rawToXNO (([wPending1, wPending2].map amtOf).sum)]) :=
  ⟨by decide,
    balance_drain_unopened (envUnopened [wPending1, wPending2])
      [wPending1, wPending2] ⟨⟨"SEED", rfl⟩, rfl, rfl⟩
      ⟨fun _ => rfl, fun _ => rfl, fun _ => rfl, fun _ => rfl⟩
      rfl rfl (by decide)⟩

/-- C2: if the proof-of-work fetch fails on the k-th pending transfer
(1 ≤ k ≤ N) of a balance drain, the operation aborts with that error,
exactly k−1 blocks have been submitted, and they are exactly the first
k−1 blocks of the reference run — no block of transfer k or beyond is
submitted, and nothing is rolled back. -/
theorem balance_drain_workfail (env : Env) (ps : List Pending) (k : Nat)
    (e : Err) (hsetup : setupOk env)
    (hinfo : env.fetchInfo = Except.error Err.accountNotFound ∨
      ∃ info, env.fetchInfo = Except.ok info)
    (hps : env.fetchPending = Except.ok ps) (hpar : allParse ps)
    (hk1 : 1 ≤ k) (hkN : k ≤ ps.length)
    (hlt : ∀ n, n < k - 1 → env.constructErr n = none ∧
      env.signErr n = none ∧ env.workErr n = none ∧ env.submitErr n = none)
    (hck : env.constructErr (k - 1) = none)
    (hsk : env.signErr (k - 1) = none)
    (hwk : env.workErr (k - 1) = some e) :
    (printBalance env).2 = some e ∧
      (submits (printBalance env).1).length = k - 1 ∧
      (env.fetchInfo = Except.error Err.accountNotFound →
        submits (printBalance env).1 =
          ((drainSpec true synthInfo ps).1).take (k - 1)) ∧
      (∀ info, env.fetchInfo = Except.ok info →
        submits (printBalance env).1 =
          ((drainSpec false info ps).1).take (k - 1)) := by
  rcases hinfo with hnf | ⟨info, hok⟩
  · have hd := drainLoop_workfail env (k - 1) e hlt hck hsk hwk ps hpar 0
      true synthInfo (Nat.zero_le _) (by omega)
    rcases hdl : drainLoop env 0 true synthInfo ps with ⟨tr, res⟩
    rw [hdl] at hd
    obtain ⟨hres, hsub⟩ := hd
    simp only at hres hsub
    subst hres
    have hbc : balanceCont env true synthInfo =
        (Ev.callFetchPending :: tr, some e) := by
      simp [balanceCont, hps, hdl]
    have hpb := printBalance_notFound env hsetup hnf
    rw [hbc] at hpb
    dsimp only at hpb
    rw [hpb]
    dsimp only
    have hsub2 : submits (Ev.callFetchInfo :: Ev.callFetchPending :: tr) =
        ((drainSpec true synthInfo ps).1).take (k - 1 - 0) := by
      simp [submits, hsub]
    rw [Nat.sub_zero] at hsub2
    refine ⟨rfl, ?_, fun _ => hsub2, ?_⟩
    · rw [hsub2, List.length_take, drainSpec_length]
      omega
    · intro info' hinfo'
      rw [hnf] at hinfo'
      exact Except.noConfusion hinfo'
  · have hd := drainLoop_workfail env (k - 1) e hlt hck hsk hwk ps hpar 0
      false info (Nat.zero_le _) (by omega)
    rcases hdl : drainLoop env 0 false info ps with ⟨tr, res⟩
    rw [hdl] at hd
    obtain ⟨hres, hsub⟩ := hd
    simp only at hres hsub
    subst hres
    have hbc : balanceCont env false info =
        (Ev.callFetchPending :: tr, some e) := by
      simp [balanceCont, hps, hdl]
    have hpb := printBalance_found env info hsetup hok
    rw [hbc] at hpb
    dsimp only at hpb
    rw [hpb]
    dsimp only
    have hsub2 : submits (Ev.callFetchInfo :: Ev.callFetchPending :: tr) =
        ((drainSpec false info ps).1).take (k - 1 - 0) := by
      simp [submits, hsub]
    rw [Nat.sub_zero] at hsub2
    refine ⟨rfl, ?_, ?_, ?_⟩
    · rw [hsub2, List.length_take, drainSpec_length]
      omega
    · intro hinfo'
      rw [hok] at hinfo'
      exact Except.noConfusion hinfo'
    · intro info' hinfo'
      rw [hok] at hinfo'
      injection hinfo' with h1
      rw [← h1]
      exact hsub2

/-- An environment whose work fetch fails on the second block. -/
def envWorkFail2 (ps : List Pending) : Env :=
  { envUnopened ps with
    workErr := fun n => if n = 1 then some (Err.transport 0) else none }

theorem balance_drain_workfail_witness :
    allParse [wPending1, wPending2] ∧
      ((printBalance (envWorkFail2 [wPending1, wPending2])).2 =
          some (Err.transport 0) ∧
        (submits (printBalance
          (envWorkFail2 [wPending1, wPending2])).1).length = 2 - 1 ∧
        ((envWorkFail2 [wPending1, wPending2]).fetchInfo =
            Except.error Err.accountNotFound →
          submits (printBalance (envWorkFail2 [wPending1, wPending2])).1 =
            ((drainSpec true synthInfo [wPending1, wPending2]).1).take
              (2 - 1)) ∧
        (∀ info, (envWorkFail2 [wPending1, wPending2]).fetchInfo =
            Except.ok info →
          submits (printBalance (envWorkFail2 [wPending1, wPending2])).1 =
            ((drainSpec false info [wPending1, wPending2]).1).take
              (2 - 1))) :=
  ⟨by decide,
    balance_drain_workfail (envWorkFail2 [wPending1, wPending2])
      [wPending1, wPending2] 2 (Err.transport 0)
      ⟨⟨"SEED", rfl⟩, rfl, rfl⟩ (Or.inl rfl) rfl (by decide)
      (by decide) (by decide)
      (fun n hn => by
        have hn0 : n = 0 := by omega
        subst hn0
        exact ⟨rfl, rfl, rfl, rfl⟩)
      rfl rfl rfl⟩

/-- The constructed blocks of a balance run come from its drain loop:
either nothing was constructed, or the run drained with a first receive
after a not-found reply, or it drained an existing account. -/
lemma printBalance_signedBlocks (env : Env) :
    signedBlocks (printBalance env).1 = [] ∨
      (∃ ps, env.fetchInfo = Except.error Err.accountNotFound ∧
        env.fetchPending = Except.ok ps ∧
        signedBlocks (printBalance env).1 =
          signedBlocks (drainLoop env 0 true synthInfo ps).1) ∨
      (∃ info ps, env.fetchInfo = Except.ok info ∧
        env.fetchPending = Except.ok ps ∧
        signedBlocks (printBalance env).1 =
          signedBlocks (drainLoop env 0 false info ps).1) := by
  cases hg : env.getSeed with
  | error e => left; simp [printBalance, hg, signedBlocks]
  | ok s =>
    cases hk : env.keyErr with
    | some e => left; simp [printBalance, hg, hk, signedBlocks]
    | none =>
      cases ha : env.accountErr with
      | some e => left; simp [printBalance, hg, hk, ha, signedBlocks]
      | none =>
        cases hi : env.fetchInfo with
        | error e =>
          by_cases he : e = Err.accountNotFound
          · subst he
            cases hp : env.fetchPending with
            | error e2 =>
              left
              simp [printBalance, balanceCont, hg, hk, ha, hi, hp,
                signedBlocks]
            | ok ps =>
              right; left
              refine ⟨ps, rfl, rfl, ?_⟩
              rcases hdl : drainLoop env 0 true synthInfo ps with ⟨tr, res⟩
              cases res <;>
                simp [printBalance, balanceCont, hg, hk, ha, hi, hp, hdl,
                  signedBlocks]
          · left
            simp [printBalance, hg, hk, ha, hi, he, signedBlocks]
        | ok info =>
          cases hp : env.fetchPending with
          | error e2 =>
            left
            simp [printBalance, balanceCont, hg, hk, ha, hi, hp,
              signedBlocks]
          | ok ps =>
            right; right
            refine ⟨info, ps, rfl, rfl, ?_⟩
            rcases hdl : drainLoop env 0 false info ps with ⟨tr, res⟩
            cases res <;>
              simp [printBalance, balanceCont, hg, hk, ha, hi, hp, hdl,
                signedBlocks]

/-- C3: in any single balance run, an Open block can only be the first
constructed block (hence at most one); if the account query found the
account, no Open block is ever constructed; and draining M pending
transfers of an opened account submits exactly M blocks, all Receive
and none Open. -/
theorem open_block_at_most_once (env : Env) :
    (∀ (n : Nat) (b : Block),
      (signedBlocks (printBalance env).1).get? n = some b →
      isOpenB b = true → n = 0) ∧
      (∀ info, env.fetchInfo = Except.ok info →
        ∀ b ∈ signedBlocks (printBalance env).1, isOpenB b = false) ∧
      (∀ info ps, setupOk env → noFailures env →
        env.fetchInfo = Except.ok info → env.fetchPending = Except.ok ps →
        allParse ps →
        (submits (printBalance env).1).length = ps.length ∧
        ∀ b ∈ submits (printBalance env).1,
          isRecvB b = true ∧ isOpenB b = false) := by
  refine ⟨?_, ?_, ?_⟩
  · intro n b hget hop
    rcases printBalance_signedBlocks env with h | ⟨ps, _, _, h⟩ |
        ⟨info, ps, _, _, h⟩
    · rw [h] at hget
      simp at hget
    · cases n with
      | zero => rfl
      | succ m =>
        rw [h] at hget
        have hd : ((signedBlocks
            (drainLoop env 0 true synthInfo ps).1).drop 1).get? m =
            some b := by
          rw [List.get?_drop]
          rw [Nat.add_comm]
          exact hget
        have hmem := List.get?_mem hd
        have hno := drainLoop_drop1_noopen env ps 0 true synthInfo b hmem
        rw [hop] at hno
        exact Bool.noConfusion hno
    · rw [h] at hget
      have hno := drainLoop_false_noopen env ps 0 info b
        (List.get?_mem hget)
      rw [hop] at hno
      exact Bool.noConfusion hno
  · intro info hinfo b hb
    rcases printBalance_signedBlocks env with h | ⟨ps, hi, _, h⟩ |
        ⟨info', ps, hi, _, h⟩
    · rw [h] at hb
      exact absurd hb (List.not_mem_nil b)
    · rw [hinfo] at hi
      exact Except.noConfusion hi
    · rw [h] at hb
      exact drainLoop_false_noopen env ps 0 info' b hb
  · intro info ps hsetup hnf hinfo hps hpar
    obtain ⟨hc, hsg, hw, hb⟩ := hnf
    have hd := drainLoop_ok env hc hsg hw hb ps hpar 0 false info
    rcases hdl : drainLoop env 0 false info ps with ⟨tr, res⟩
    rw [hdl] at hd
    obtain ⟨hres, hsub, hsgn, hout⟩ := hd
    simp only at hres hsub hsgn hout
    subst hres
    have hbc : balanceCont env false info =
        (Ev.callFetchPending :: tr ++
          [Ev.outLine (rawToXNO (drainSpec false info ps).2.balance)],
          none) := by
      simp [balanceCont, hps, hdl]
    have hpb := printBalance_found env info hsetup hinfo
    rw [hbc] at hpb
    dsimp only at hpb
    rw [hpb]
    dsimp only
    have hsub2 : submits (Ev.callFetchInfo :: (Ev.callFetchPending :: tr ++
        [Ev.outLine (rawToXNO (drainSpec false info ps).2.balance)])) =
        (drainSpec false info ps).1 := by
      simp [submits, hsub]
    rw [hsub2]
    refine ⟨drainSpec_length ps false info, ?_⟩
    intro b hbmem
    have hr := drainSpec_false_recv ps info b hbmem
    refine ⟨hr, ?_⟩
    cases b <;> simp_all [isRecvB, isOpenB]

/-- An already-opened account state. -/
def infoOpened : AccountInfo :=
  { frontier := Frontier.ext "FRONTIER", representative := "REP",
    balance := 3 }

/-- An environment in which the account is already opened, the pending
query returns `ps` and every external call succeeds. -/
def envOpened (ps : List Pending) : Env :=
  { envUnopened ps with fetchInfo := Except.ok infoOpened }

theorem open_block_at_most_once_witness :
    (submits (printBalance (envOpened [wPending1, wPending2])).1).length =
        [wPending1, wPending2].length ∧
      ∀ b ∈ submits (printBalance (envOpened [wPending1, wPending2])).1,
        isRecvB b = true ∧ isOpenB b = false :=
  (open_block_at_most_once
      (envOpened [wPending1, wPending2])).2.2 infoOpened
    [wPending1, wPending2] ⟨⟨"SEED", rfl⟩, rfl, rfl⟩
    ⟨fun _ => rfl, fun _ => rfl, fun _ => rfl, fun _ => rfl⟩
    rfl rfl (by decide)

/-- C4: in the balance operation, a not-found reply from the
account-state query is not a failure — the run continues with the
synthesized zero-balance, frontierless state treated as a first receive
— while any other failure of that query aborts the operation at once. -/
theorem balance_notFound_not_fatal (env : Env) (hsetup : setupOk env) :
    (env.fetchInfo = Except.error Err.accountNotFound →
      printBalance env =
        (Ev.callFetchInfo :: (balanceCont env true synthInfo).1,
          (balanceCont env true synthInfo).2)) ∧
      ∀ e, e ≠ Err.accountNotFound → env.fetchInfo = Except.error e →
        printBalance env = ([Ev.callFetchInfo], some e) :=
  ⟨fun h => printBalance_notFound env hsetup h,
    fun e hne h => printBalance_fetchfail env e hsetup h hne⟩

/-- An environment whose account query fails with a transport error. -/
def envFetchFail : Env :=
  { envUnopened [] with fetchInfo := Except.error (Err.transport 7) }

theorem balance_notFound_not_fatal_witness :
    (printBalance (envUnopened []) =
      (Ev.callFetchInfo ::
          (balanceCont (envUnopened []) true synthInfo).1,
        (balanceCont (envUnopened []) true synthInfo).2)) ∧
      printBalance envFetchFail =
        ([Ev.callFetchInfo], some (Err.transport 7)) :=
  ⟨(balance_notFound_not_fatal (envUnopened [])
      ⟨⟨"SEED", rfl⟩, rfl, rfl⟩).1 rfl,
    (balance_notFound_not_fatal envFetchFail
      ⟨⟨"SEED", rfl⟩, rfl, rfl⟩).2 (Err.transport 7) (by decide) rfl⟩

/-! ## Guardedness of every operation -/

lemma submitsGuarded_of_no_submit (tr : List Ev)
    (h : ∀ b ok, Ev.submit b ok ∉ tr) : SubmitsGuarded tr := by
  intro l b ok r hsp
  exact absurd (hsp ▸ List.mem_append_right l (List.mem_cons_self _ _))
    (h b ok)

lemma submitsGuarded_sws_nil (env : Env) (i : Nat) (b : Block) :
    SubmitsGuarded (signWorkSubmit env i b).1 := by
  have h0 := submitsGuarded_sws env i b [] submitsGuarded_nil
  rwa [List.append_nil] at h0

lemma submitsGuarded_append_tail (t u : List Ev) (ht : SubmitsGuarded t)
    (hu : ∀ b ok, Ev.submit b ok ∉ u) : SubmitsGuarded (t ++ u) := by
  intro l b ok r h
  rcases List.append_eq_append_iff.mp h with ⟨a', ha1, ha2⟩ |
      ⟨c', hc1, hc2⟩
  · exact absurd
      (ha2 ▸ List.mem_append_right a' (List.mem_cons_self _ _)) (hu b ok)
  · cases c' with
    | nil =>
      rw [List.nil_append] at hc2
      exact absurd (hc2 ▸ List.mem_cons_self _ _) (hu b ok)
    | cons z c'' =>
      injection hc2 with hz hr
      have ht2 : t = l ++ Ev.submit b ok :: c'' := by
        rw [hc1, ← hz]
      exact ht l b ok c'' ht2

lemma balanceCont_guarded (env : Env) (fr : Bool) (info : AccountInfo) :
    SubmitsGuarded (balanceCont env fr info).1 := by
  cases hp : env.fetchPending with
  | error e =>
    simp only [balanceCont, hp]
    exact submitsGuarded_of_no_submit _ (by simp)
  | ok ps =>
    rcases hdl : drainLoop env 0 fr info ps with ⟨tr, res⟩
    have htr : SubmitsGuarded tr := by
      have h0 := drainLoop_guarded env ps 0 fr info
      rwa [hdl] at h0
    cases res with
    | error e =>
      simp only [balanceCont, hp, hdl]
      exact submitsGuarded_cons _ _ (fun b ok h => Ev.noConfusion h) htr
    | ok info' =>
      simp only [balanceCont, hp, hdl]
      exact submitsGuarded_cons _ _ (fun b ok h => Ev.noConfusion h)
        (submitsGuarded_append_tail tr _ htr (by simp))

lemma printBalance_guarded (env : Env) :
    SubmitsGuarded (printBalance env).1 := by
  cases hg : env.getSeed with
  | error e =>
    simp only [printBalance, hg]
    exact submitsGuarded_nil
  | ok s =>
    cases hk : env.keyErr with
    | some e =>
      simp only [printBalance, hg, hk]
      exact submitsGuarded_nil
    | none =>
      cases ha : env.accountErr with
      | some e =>
        simp only [printBalance, hg, hk, ha]
        exact submitsGuarded_nil
      | none =>
        cases hi : env.fetchInfo with
        | error e =>
          by_cases he : e = Err.accountNotFound
          · subst he
            simp only [printBalance, hg, hk, ha, hi, if_pos rfl]
            exact submitsGuarded_cons _ _ (fun b ok h => Ev.noConfusion h)
              (balanceCont_guarded env true synthInfo)
          · simp only [printBalance, hg, hk, ha, hi, if_neg he]
            exact submitsGuarded_of_no_submit _ (by simp)
        | ok info =>
          simp only [printBalance, hg, hk, ha, hi]
          exact submitsGuarded_cons _ _ (fun b ok h => Ev.noConfusion h)
            (balanceCont_guarded env false info)

lemma changeRepresentative_guarded (env : Env) (rep : String) :
    SubmitsGuarded (changeRepresentative env rep).1 := by
  cases hg : env.getSeed with
  | error e =>
    simp only [changeRepresentative, hg]
    exact submitsGuarded_nil
  | ok s =>
    cases hk : env.keyErr with
    | some e =>
      simp only [changeRepresentative, hg, hk]
      exact submitsGuarded_nil
    | none =>
      cases ha : env.accountErr with
      | some e =>
        simp only [changeRepresentative, hg, hk, ha]
        exact submitsGuarded_nil
      | none =>
        cases hi : env.fetchInfo with
        | error e =>
          simp only [changeRepresentative, hg, hk, ha, hi]
          exact submitsGuarded_of_no_submit _ (by simp)
        | ok info =>
          cases hce : env.constructErr 0 with
          | some e =>
            simp only [changeRepresentative, hg, hk, ha, hi, hce]
            exact submitsGuarded_of_no_submit _ (by simp)
          | none =>
            simp only [changeRepresentative, hg, hk, ha, hi, hce,
              List.cons_append, List.nil_append]
            exact submitsGuarded_cons _ _ (fun b ok h => Ev.noConfusion h)
              (submitsGuarded_cons _ _ (fun b ok h => Ev.noConfusion h)
                (submitsGuarded_sws_nil env 0 _))

lemma sendFunds_guarded (env : Env) (amtStr rcpt : String) :
    SubmitsGuarded (sendFunds env amtStr rcpt).1 := by
  cases hg : env.getSeed with
  | error e =>
    simp only [sendFunds, hg]
    exact submitsGuarded_nil
  | ok s =>
    cases hk : env.keyErr with
    | some e =>
      simp only [sendFunds, hg, hk]
      exact submitsGuarded_nil
    | none =>
      cases ha : env.accountErr with
      | some e =>
        simp only [sendFunds, hg, hk, ha]
        exact submitsGuarded_nil
      | none =>
        cases hy : env.yFlag with
        | false =>
          cases hcf : env.confirm with
          | false =>
            simp only [sendFunds, letUserVerifySend, hg, hk, ha, hy, hcf,
              Bool.false_eq_true, if_false]
            exact submitsGuarded_of_no_submit _ (by simp)
          | true =>
            cases hi : env.fetchInfo with
            | error e =>
              simp only [sendFunds, letUserVerifySend, hg, hk, ha, hy,
                hcf, hi, Bool.false_eq_true, if_false, if_true,
                List.cons_append, List.nil_append]
              exact submitsGuarded_of_no_submit _ (by simp)
            | ok info =>
              cases hce : env.constructErr 0 with
              | some e =>
                simp only [sendFunds, letUserVerifySend, hg, hk, ha, hy,
                  hcf, hi, hce, Bool.false_eq_true, if_false, if_true,
                  List.cons_append, List.nil_append]
                exact submitsGuarded_of_no_submit _ (by simp)
              | none =>
                simp only [sendFunds, letUserVerifySend, hg, hk, ha, hy,
                  hcf, hi, hce, Bool.false_eq_true, if_false, if_true,
                  List.append_assoc, List.cons_append, List.nil_append]
                exact submitsGuarded_cons _ _
                  (fun b ok h => Ev.noConfusion h)
                  (submitsGuarded_cons _ _ (fun b ok h => Ev.noConfusion h)
                    (submitsGuarded_cons _ _
                      (fun b ok h => Ev.noConfusion h)
                      (submitsGuarded_sws_nil env 0 _)))
        | true =>
          cases hi : env.fetchInfo with
          | error e =>
            simp only [sendFunds, letUserVerifySend, hg, hk, ha, hy, hi,
              if_true, List.nil_append]
            exact submitsGuarded_of_no_submit _ (by simp)
          | ok info =>
            cases hce : env.constructErr 0 with
            | some e =>
              simp only [sendFunds, letUserVerifySend, hg, hk, ha, hy, hi,
                hce, if_true, List.nil_append]
              exact submitsGuarded_of_no_submit _ (by simp)
            | none =>
              simp only [sendFunds, letUserVerifySend, hg, hk, ha, hy, hi,
                hce, if_true, List.append_assoc, List.cons_append,
                List.nil_append]
              exact submitsGuarded_cons _ _ (fun b ok h => Ev.noConfusion h)
                (submitsGuarded_cons _ _ (fun b ok h => Ev.noConfusion h)
                  (submitsGuarded_sws_nil env 0 _))

/-- C5: in every operation that submits a block — the balance drain,
the representative change and the send — every submit call in the trace
is preceded by a successful sign call and a successful work fetch for
that very block; if signing or the work fetch fails, the submit call is
never reached. -/
theorem submit_needs_sign_and_work (env : Env) (rep amtStr rcpt : String) :
    SubmitsGuarded (printBalance env).1 ∧
      SubmitsGuarded (changeRepresentative env rep).1 ∧
      SubmitsGuarded (sendFunds env amtStr rcpt).1 :=
  ⟨printBalance_guarded env, changeRepresentative_guarded env rep,
    sendFunds_guarded env amtStr rcpt⟩

theorem submit_needs_sign_and_work_witness :
    SubmitsGuarded (printBalance (envUnopened [wPending1])).1 :=
  (submit_needs_sign_and_work (envUnopened [wPending1]) "REP" "1" "D").1

/-- No outcome of `signWorkSubmit` reads a confirmation. -/
lemma confirmRead_not_in_sws (env : Env) (i : Nat) (b : Block)
    (ans : Bool) : Ev.confirmRead ans ∉ (signWorkSubmit env i b).1 := by
  cases h1 : env.signErr i <;> cases h2 : env.workErr i <;>
    cases h3 : env.submitErr i <;> simp [signWorkSubmit, h1, h2, h3]

/-- C6: with the force flag set, the send operation never reads a
confirmation; without it, a declined confirmation aborts with the
declined error and zero Ledger Client calls, and every Ledger Client
call of a send happens only after an affirmative confirmation was
read. -/
theorem send_confirmation_gate (env : Env) (amtStr rcpt : String) :
    (env.yFlag = true →
      ∀ ans, Ev.confirmRead ans ∉ (sendFunds env amtStr rcpt).1) ∧
      (env.yFlag = false → env.confirm = false → setupOk env →
        ledgerCalls (sendFunds env amtStr rcpt).1 = [] ∧
        (sendFunds env amtStr rcpt).2 = some Err.confirmationDeclined) ∧
      (env.yFlag = false → ConfirmFirst (sendFunds env amtStr rcpt).1) := by
  refine ⟨?_, ?_, ?_⟩
  · intro hy ans
    cases hg : env.getSeed with
    | error e => simp [sendFunds, hg]
    | ok s =>
      cases hk : env.keyErr with
      | some e => simp [sendFunds, hg, hk]
      | none =>
        cases ha : env.accountErr with
        | some e => simp [sendFunds, hg, hk, ha]
        | none =>
          cases hi : env.fetchInfo with
          | error e =>
            simp [sendFunds, letUserVerifySend, hg, hk, ha, hy, hi]
          | ok info =>
            cases hce : env.constructErr 0 with
            | some e =>
              simp [sendFunds, letUserVerifySend, hg, hk, ha, hy, hi, hce]
            | none =>
              simp only [sendFunds, letUserVerifySend, hg, hk, ha, hy, hi,
                hce, if_true, List.nil_append, List.cons_append]
              intro hmem
              simp only [List.mem_cons] at hmem
              rcases hmem with h | h | h
              · exact Ev.noConfusion h
              · exact Ev.noConfusion h
              · exact confirmRead_not_in_sws env 0 _ ans h
  · intro hy hcf hsetup
    obtain ⟨⟨s, hs⟩, hk, ha⟩ := hsetup
    simp [sendFunds, letUserVerifySend, hs, hk, ha, hy, hcf, ledgerCalls,
      isLedgerCall]
  · intro hy
    cases hg : env.getSeed with
    | error e =>
      simp only [sendFunds, hg]
      exact confirmFirst_of_no_ledger [] (by simp)
    | ok s =>
      cases hk : env.keyErr with
      | some e =>
        simp only [sendFunds, hg, hk]
        exact confirmFirst_of_no_ledger [] (by simp)
      | none =>
        cases ha : env.accountErr with
        | some e =>
          simp only [sendFunds, hg, hk, ha]
          exact confirmFirst_of_no_ledger [] (by simp)
        | none =>
          cases hcf : env.confirm with
          | false =>
            simp only [sendFunds, letUserVerifySend, hg, hk, ha, hy, hcf,
              Bool.false_eq_true, if_false]
            exact confirmFirst_of_no_ledger _ (by
              intro e he
              simp at he
              rw [he]
              rfl)
          | true =>
            cases hi : env.fetchInfo with
            | error e =>
              simp only [sendFunds, letUserVerifySend, hg, hk, ha, hy,
                hcf, hi, Bool.false_eq_true, if_false, if_true,
                List.cons_append, List.nil_append]
              exact confirmFirst_head _
            | ok info =>
              cases hce : env.constructErr 0 with
              | some e =>
                simp only [sendFunds, letUserVerifySend, hg, hk, ha, hy,
                  hcf, hi, hce, Bool.false_eq_true, if_false, if_true,
                  List.cons_append, List.nil_append]
                exact confirmFirst_head _
              | none =>
                simp only [sendFunds, letUserVerifySend, hg, hk, ha, hy,
                  hcf, hi, hce, Bool.false_eq_true, if_false, if_true,
                  List.append_assoc, List.cons_append, List.nil_append]
                exact confirmFirst_head _

/-- An environment in which the user declines the confirmation. -/
def envDeclined : Env := { envOpened [] with confirm := false }

theorem send_confirmation_gate_witness :
    ledgerCalls (sendFunds envDeclined "1" "nano_x").1 = [] ∧
      (sendFunds envDeclined "1" "nano_x").2 =
        some Err.confirmationDeclined :=
  (send_confirmation_gate envDeclined "1" "nano_x").2.1 rfl rfl
    ⟨⟨"SEED", rfl⟩, rfl, rfl⟩

/-! ## The spec's concrete drain scenario -/

/-- The first pending transfer of the spec's scenario. -/
def pendingX : Pending :=
  { amount := "1025000000000000000000000000", source := "X" }

/-- The second pending transfer of the spec's scenario. -/
def pendingY : Pending :=
  { amount := "100000000000000000000000000", source := "Y" }

/-- The scenario environment: unopened account, the two pending
transfers, every external call succeeding. -/
def envScenario : Env := envUnopened [pendingX, pendingY]

/-- C7: draining the unopened scenario account submits exactly two
blocks — the Open block for X's transfer, then a Receive block for Y's
transfer chained to it — prints exactly the final balance `1.125` on
stdout, and writes to stderr exactly two `Creating receive block for
… done` lines in transfer order (the first also narrating the account
opening). -/
theorem scenario_two_pendings :
    (printBalance envScenario).2 = none ∧
      submits (printBalance envScenario).1 =
        [Block.openB defaultRepresentative "X" 1025000000000000000000000000,
          Block.recvB (Frontier.blk (Block.openB defaultRepresentative "X"
            1025000000000000000000000000)) "Y"
            100000000000000000000000000] ∧
      outLines (printBalance envScenario).1 = ["1.125"] ∧
      errTexts (printBalance envScenario).1 =
        ["Creating receive block for 1.025 from X... ",
          "opening account... ", "done",
          "Creating receive block for 0.100 from Y... ", "done"] :=
  ⟨rfl, rfl, rfl, rfl⟩

/-! ## Exit codes and dispatch -/

/-- C8 counterexample: an invocation whose first positional argument is
the empty string — a malformed argument, reaching no network activity —
does not exit with the usage code 1: `flag.Arg(0)[:1]` panics on it
(line 62), aborting the process with a Go runtime error. -/
theorem empty_arg_no_usage_exit :
    runAtto (envUnopened []) false [""] = ([], Outcome.panicked) ∧
      Outcome.panicked ≠ Outcome.exited 1 :=
  ⟨rfl, by decide⟩

/-- C8 (amended): the `-v` flag prints the version and exits 0
immediately with no further processing; for invocations whose first
positional argument, if any, is non-empty, a missing or ill-shaped
command prints only the usage text — no network activity — and exits 1,
a successful operation exits 0, and a failed operation exits 2 after
printing its error. -/
theorem exit_codes (env : Env) (vFlag : Bool) (args : List String) :
    (vFlag = true →
      runAtto env vFlag args = ([Ev.outLine "1.3.0"], Outcome.exited 0)) ∧
      (vFlag = false → args = [] →
        runAtto env vFlag args =
          ([Ev.errText usageText], Outcome.exited 1)) ∧
      (∀ a rest c cs, vFlag = false → args = a :: rest →
        a.data = c :: cs → argsOk c rest.length = false →
        runAtto env vFlag args =
          ([Ev.errText usageText], Outcome.exited 1)) ∧
      (∀ a rest c cs, vFlag = false → args = a :: rest →
        a.data = c :: cs → argsOk c rest.length = true →
        runAtto env vFlag args = finishOp (runCommand env c rest)) ∧
      (∀ tr, finishOp (tr, none) = (tr, Outcome.exited 0)) ∧
      (∀ tr e, finishOp (tr, some e) =
        (tr ++ [Ev.errText ("Error: " ++ errMsg e ++ "\n")],
          Outcome.exited 2)) := by
  refine ⟨?_, ?_, ?_, ?_, fun tr => rfl, fun tr e => rfl⟩
  · intro hv
    subst hv
    simp [runAtto]
  · intro hv harg
    subst hv
    subst harg
    simp [runAtto]
  · intro a rest c cs hv harg hdata hok
    subst hv
    subst harg
    simp [runAtto, hdata, hok]
  · intro a rest c cs hv harg hdata hok
    subst hv
    subst harg
    simp [runAtto, hdata, hok]

theorem exit_codes_witness :
    runAtto (envUnopened []) true [] =
        ([Ev.outLine "1.3.0"], Outcome.exited 0) ∧
      runAtto (envUnopened []) false ["zzz"] =
        ([Ev.errText usageText], Outcome.exited 1) ∧
      runAtto (envUnopened []) false ["b"] =
        finishOp (runCommand (envUnopened []) 'b' []) :=
  ⟨(exit_codes (envUnopened []) true []).1 rfl,
    (exit_codes (envUnopened []) false ["zzz"]).2.2.1 "zzz" [] 'z'
      ['z', 'z'] rfl rfl rfl (by decide),
    (exit_codes (envUnopened []) false ["b"]).2.2.2.1 "b" [] 'b' []
      rfl rfl rfl (by decide)⟩

/-- C9: dispatch inspects only the first character of the first
positional argument: with one positional argument a first character of
`n`, `a` or `b` runs the corresponding operation whatever the remaining
characters, `r` with two arguments and `s` with three likewise, while
any other first character always yields the usage exit code 1. -/
theorem dispatch_first_char (env : Env) (a : String) (rest : List String)
    (c : Char) (cs : List Char) (ha : a.data = c :: cs) :
    ((c = 'n' ∨ c = 'a' ∨ c = 'b') → rest.length = 0 →
      runAtto env false (a :: rest) = finishOp (runCommand env c rest)) ∧
      (c = 'r' → rest.length = 1 →
        runAtto env false (a :: rest) = finishOp (runCommand env c rest)) ∧
      (c = 's' → rest.length = 2 →
        runAtto env false (a :: rest) = finishOp (runCommand env c rest)) ∧
      (c ≠ 'n' → c ≠ 'a' → c ≠ 'b' → c ≠ 'r' → c ≠ 's' →
        runAtto env false (a :: rest) =
          ([Ev.errText usageText], Outcome.exited 1)) := by
  refine ⟨?_, ?_, ?_, ?_⟩
  · intro hc hlen
    rcases hc with hc | hc | hc <;> subst hc <;>
      simp [runAtto, ha, argsOk, hlen]
  · intro hc hlen
    subst hc
    simp [runAtto, ha, argsOk, hlen]
  · intro hc hlen
    subst hc
    simp [runAtto, ha, argsOk, hlen]
  · intro hn hA hb hr hs
    have hok : argsOk c rest.length = false := by
      simp [argsOk, hn, hA, hb, hr, hs]
    simp [runAtto, ha, hok]

theorem dispatch_first_char_witness :
    runAtto (envUnopened []) false ["bogus"] =
      finishOp (printBalance (envUnopened [])) :=
  (dispatch_first_char (envUnopened []) "bogus" [] 'b'
      ['o', 'g', 'u', 's'] rfl).1 (Or.inr (Or.inr rfl)) rfl

/-- C10: unlike the balance operation, the representative change and
the send do not consume a not-found reply: for a never-opened account
the account-state query's not-found error aborts them unchanged — no
block is constructed or submitted, only the query appears in the trace —
and the process exits with the operational code 2. -/
theorem rep_send_notFound_fatal (env : Env) (rep amtStr rcpt : String)
    (hsetup : setupOk env)
    (hinfo : env.fetchInfo = Except.error Err.accountNotFound) :
    changeRepresentative env rep =
        ([Ev.callFetchInfo], some Err.accountNotFound) ∧
      (env.yFlag = true → sendFunds env amtStr rcpt =
        ([Ev.callFetchInfo], some Err.accountNotFound)) ∧
      (env.yFlag = false → env.confirm = true →
        sendFunds env amtStr rcpt =
          ([Ev.confirmRead true, Ev.callFetchInfo],
            some Err.accountNotFound)) ∧
      (runAtto env false ["r", rep]).2 = Outcome.exited 2 ∧
      (env.yFlag = true →
        (runAtto env false ["s", amtStr, rcpt]).2 = Outcome.exited 2) := by
  obtain ⟨⟨s, hs⟩, hk, ha⟩ := hsetup
  have hchg : changeRepresentative env rep =
      ([Ev.callFetchInfo], some Err.accountNotFound) := by
    simp [changeRepresentative, hs, hk, ha, hinfo]
  refine ⟨hchg, ?_, ?_, ?_, ?_⟩
  · intro hy
    simp [sendFunds, letUserVerifySend, hs, hk, ha, hy, hinfo]
  · intro hy hcf
    simp [sendFunds, letUserVerifySend, hs, hk, ha, hy, hcf, hinfo]
  · simp [runAtto, argsOk, runCommand, hchg, finishOp]
  · intro hy
    have hsend : sendFunds env amtStr rcpt =
        ([Ev.callFetchInfo], some Err.accountNotFound) := by
      simp [sendFunds, letUserVerifySend, hs, hk, ha, hy, hinfo]
    simp [runAtto, argsOk, runCommand, hsend, finishOp]

theorem rep_send_notFound_fatal_witness :
    changeRepresentative (envUnopened []) "R2" =
        ([Ev.callFetchInfo], some Err.accountNotFound) ∧
      (runAtto (envUnopened []) false ["r", "R2"]).2 = Outcome.exited 2 :=
  ⟨(rep_send_notFound_fatal (envUnopened []) "R2" "1" "D"
      ⟨⟨"SEED", rfl⟩, rfl, rfl⟩ rfl).1,
    (rep_send_notFound_fatal (envUnopened []) "R2" "1" "D"
      ⟨⟨"SEED", rfl⟩, rfl, rfl⟩ rfl).2.2.2.1⟩

end Atto
